import Mathlib

set_option linter.unusedVariables false

/-!
Shallow embedding of the pokedex storage driver (Go sources:
`registry/storage/driver/pokedex/{client.go, pokedex.go}` plus the
package files holding `PokedexKey` and the shared helpers).

Modelling conventions:
* Go strings are Lean `String`s; the path-manipulation core of the
  directory-listing code additionally works on `List Char` (a `String`'s
  `data`), which mirrors Go's byte-wise string functions.
* Every HTTP round trip (`goreq.Request.Do`) is modelled by popping the
  next element of an explicit response list (`Net`); an empty list acts
  like a transport failure.  Each operation also returns the list of
  requests it actually issued, so "no request was sent" is the statement
  that this trace is empty.  Query parameters and headers are elided from
  the trace; only method and URI are recorded.
* Byte streams are `List Nat`; timestamps are `Int` (their textual
  parsing is not needed by any claim).
* Go's `(value, error)` returns become `Except`/`Option` results paired
  with the updated receiver where the Go method mutates it.
-/

/-- The JSON-visible fields of a pokedex key record (struct `PokedexKey`
without its unexported `deleted`/`client` fields). -/
structure WireKey where
  Id : Int
  Name : String
  Created : Int
  Modified : Int
  FileserverId : String
  FileserverHost : String
  FileserverPort : Int
  ContentLength : Option Int
  ContentType : Option String
  Checksum : Option String
  deriving DecidableEq

/-- The zero value of `WireKey` (what Go's `var k PokedexKey` starts from,
and what unmarshalling a JSON `null` leaves behind). -/
def WireKey.zero : WireKey :=
  ⟨0, "", 0, 0, "", "", 0, none, none, none⟩

/-- Parsed body of an HTTP response, one constructor per JSON shape the
client ever decodes (`malformed` stands for bodies that fail to decode). -/
inductive RespBody where
  | jsonNull
  | jsonKey (w : WireKey)
  | jsonKeys (ws : List WireKey)
  | jsonCount (n : Int)
  | byteData (bs : List Nat)
  | malformed
  deriving DecidableEq

/-- One HTTP response: status code, status text and parsed body. -/
structure HTTPResponse where
  statusCode : Int
  status : String
  body : RespBody
  deriving DecidableEq

/-- Result of `goreq.Request.Do`: either a transport error or a response. -/
abbrev HTTPResult := Except String HTTPResponse

/-- The pending network responses, consumed one per issued request. -/
abbrev Net := List HTTPResult

/-- A record of one issued request (method and URI; query parameters and
headers are elided). -/
structure Request where
  method : String
  uri : String
  deriving DecidableEq

/-- The requests an operation actually issued, in order. -/
abbrev Trace := List Request

/-- Pop the next pending response; an exhausted list behaves like a
transport error. -/
def takeResp : Net → HTTPResult × Net
  | [] => (Except.error "no response", [])
  | r :: rs => (r, rs)

/-- All error values the Go code can produce. -/
inductive PokedexError where
  /-- `KeyDoesNotExist{Name: ...}` -/
  | keyDoesNotExist (name : String)
  /-- `RequestError{StatusCode: ..., Reason: ...}` -/
  | requestError (statusCode : Int) (reason : String)
  /-- an error returned by `goreq.Request.Do` itself -/
  | transportError (msg : String)
  /-- a JSON (un)marshalling failure -/
  | jsonError (msg : String)
  /-- `storagedriver.PathNotFoundError{Path: ...}` -/
  | pathNotFound (path : String)
  /-- an `errors.New`/`fmt.Errorf` error with the given message -/
  | genericError (msg : String)
  /-- `io.ErrShortWrite` inside `bufio` -/
  | shortWrite
  /-- marker for a Go nil-pointer dereference (a runtime panic) -/
  | nilDereference (what : String)
  deriving DecidableEq

/-- `CheckHTTPResponse(resp, expectedStatus)` from the helpers file. -/
def CheckHTTPResponse (resp : HTTPResponse) (expectedStatus : Int) :
    Option PokedexError :=
  if resp.statusCode ≠ expectedStatus then
    some (.requestError resp.statusCode resp.status)
  else
    none

/-- `StringSliceContains(s, n)` from the helpers file (here over char
lists, the representation used by the listing code). -/
def StringSliceContains : List (List Char) → List Char → Bool
  | [], _ => false
  | a :: rest, n => if a = n then true else StringSliceContains rest n

/-- struct `PokedexClient` -/
structure PokedexClient where
  Host : String
  Port : Int
  deriving DecidableEq

/-- `PokedexClient.MakeUrl` -/
def PokedexClient.MakeUrl (c : PokedexClient) (path : String) : String :=
  "http://" ++ c.Host ++ ":" ++ toString c.Port ++ "/" ++ path

/-- struct `PokedexKey`: the wire fields plus the unexported local state
(`deleted` flag and back pointer to the client). -/
structure PokedexKey extends WireKey where
  deleted : Bool
  client : PokedexClient
  deriving DecidableEq

/-- `PokedexKey.Initialize(client)` applied to a freshly unmarshalled wire
record: attaches the client and clears the local `deleted` flag. -/
def initKey (w : WireKey) (c : PokedexClient) : PokedexKey :=
  ⟨w, false, c⟩

/-- `PokedexKeyFromJson(data, client)`: the literal body `null` yields no
key and no error; a key body is unmarshalled and initialized; anything
else is an unmarshalling error. -/
def PokedexKeyFromJson (data : RespBody) (c : PokedexClient) :
    Except PokedexError (Option PokedexKey) :=
  match data with
  | .jsonNull => .ok none
  | .jsonKey w => .ok (some (initKey w c))
  | _ => .error (.jsonError "json unmarshal failed")

/-- `PokedexClient.RequestKey(method, name)` -/
def PokedexClient.RequestKey (c : PokedexClient) (method : String)
    (name : String) (net : Net) :
    Except PokedexError (Option PokedexKey) × Net × Trace :=
  let tr := [⟨method, c.MakeUrl ("keys/" ++ name)⟩]
  match takeResp net with
  | (.error e, net') => (.error (.transportError e), net', tr)
  | (.ok resp, net') =>
    match CheckHTTPResponse resp 200 with
    | some e => (.error e, net', tr)
    | none => (PokedexKeyFromJson resp.body c, net', tr)

/-- `PokedexClient.CreateKey(name)` -/
def PokedexClient.CreateKey (c : PokedexClient) (name : String) (net : Net) :
    Except PokedexError (Option PokedexKey) × Net × Trace :=
  c.RequestKey "POST" name net

/-- `PokedexClient.GetKey(name)` -/
def PokedexClient.GetKey (c : PokedexClient) (name : String) (net : Net) :
    Except PokedexError (Option PokedexKey) × Net × Trace :=
  c.RequestKey "GET" name net

/-- `PokedexClient.List(prefix)`; the prefix travels as a query parameter
(elided from the trace).  A JSON `null` body unmarshals to a nil slice. -/
def PokedexClient.List (c : PokedexClient) (pfx : String) (net : Net) :
    Except PokedexError (List PokedexKey) × Net × Trace :=
  let tr := [⟨"GET", c.MakeUrl "keys"⟩]
  match takeResp net with
  | (.error e, net') => (.error (.transportError e), net', tr)
  | (.ok resp, net') =>
    match CheckHTTPResponse resp 200 with
    | some e => (.error e, net', tr)
    | none =>
      match resp.body with
      | .jsonKeys ws => (.ok (ws.map fun w => initKey w c), net', tr)
      | .jsonNull => (.ok [], net', tr)
      | _ => (.error (.jsonError "json unmarshal failed"), net', tr)

/-- `PokedexClient.Delete(prefix)`: rejects an empty or root prefix before
issuing any request; otherwise one DELETE request whose body carries
`num_deleted`.  Returns `(count, error)` as in Go. -/
def PokedexClient.Delete (c : PokedexClient) (pfx : String) (net : Net) :
    (Int × Option PokedexError) × Net × Trace :=
  if pfx = "" ∨ pfx = "/" then
    ((0, some (.genericError "PokedexClient.Delete: prefix must not be the root")),
      net, [])
  else
    let tr := [⟨"DELETE", c.MakeUrl "keys"⟩]
    match takeResp net with
    | (.error e, net') => ((0, some (.transportError e)), net', tr)
    | (.ok resp, net') =>
      match CheckHTTPResponse resp 200 with
      | some e => ((0, some e), net', tr)
      | none =>
        match resp.body with
        | .jsonCount n => ((n, none), net', tr)
        | .jsonNull => ((0, none), net', tr)
        | _ => ((0, some (.jsonError "json unmarshal failed")), net', tr)

/-- `PokedexKey.KeyUrl()` -/
def PokedexKey.KeyUrl (k : PokedexKey) : String :=
  k.client.MakeUrl ("keys/" ++ k.Name)

/-- `PokedexKey.DataUrl()` -/
def PokedexKey.DataUrl (k : PokedexKey) : String :=
  "http://" ++ k.FileserverHost ++ ":" ++ toString k.FileserverPort
    ++ "/files/" ++ toString k.Id

/-- `PokedexKey.checkExists()`: fail fast on the local `deleted` flag
(no request), otherwise re-fetch the key by name. -/
def PokedexKey.checkExists (k : PokedexKey) (net : Net) :
    Option PokedexError × Net × Trace :=
  if k.deleted then
    (some (.keyDoesNotExist k.Name), net, [])
  else
    match k.client.GetKey k.Name net with
    | (.error e, net', tr) => (some e, net', tr)
    | (.ok none, net', tr) => (some (.keyDoesNotExist k.Name), net', tr)
    | (.ok (some _), net', tr) => (none, net', tr)

/-- Stream bytes carried by a data-endpoint response body. -/
def bodyBytes : RespBody → List Nat
  | .byteData bs => bs
  | _ => []

/-- `PokedexKey.GetContentsAsStream(offset)`: liveness check, then a
ranged GET against the data endpoint; status 416 is a successful empty
stream; any status other than 206 is an error.  (The `Range` header
carrying `offset` is elided from the trace.) -/
def PokedexKey.GetContentsAsStream (k : PokedexKey) (offset : Int)
    (net : Net) : Except PokedexError (List Nat) × Net × Trace :=
  match k.checkExists net with
  | (some e, net', tr) => (.error e, net', tr)
  | (none, net', tr) =>
    let tr2 := tr ++ [⟨"GET", k.DataUrl⟩]
    match takeResp net' with
    | (.error e, net'') => (.error (.transportError e), net'', tr2)
    | (.ok resp, net'') =>
      if resp.statusCode = 416 then
        (.ok [], net'', tr2)
      else
        match CheckHTTPResponse resp 206 with
        | some e => (.error e, net'', tr2)
        | none => (.ok (bodyBytes resp.body), net'', tr2)

/-- `PokedexKey.SetContentsFromStream(offset, reader, contentType)`:
liveness check, then a POST of the stream to the data endpoint (the
`X-Overwrite-Offset` header sent for nonzero offsets is elided from the
trace); on a 200 response the returned metadata refreshes the handle's
content fields and the call returns `*metaKey.ContentLength - offset`
(the dereference of a nil content length is a Go panic, modelled as the
`nilDereference` error). -/
def PokedexKey.SetContentsFromStream (k : PokedexKey) (offset : Int)
    (source : List Nat) (contentType : String) (net : Net) :
    Except PokedexError Int × PokedexKey × Net × Trace :=
  match k.checkExists net with
  | (some e, net', tr) => (.error e, k, net', tr)
  | (none, net', tr) =>
    let tr2 := tr ++ [⟨"POST", k.DataUrl⟩]
    match takeResp net' with
    | (.error e, net'') => (.error (.transportError e), k, net'', tr2)
    | (.ok resp, net'') =>
      match CheckHTTPResponse resp 200 with
      | some e => (.error e, k, net'', tr2)
      | none =>
        match
          (match resp.body with
            | .jsonKey w => Except.ok w
            | .jsonNull => Except.ok WireKey.zero
            | _ => Except.error (PokedexError.jsonError "json unmarshal failed"))
          with
        | .error e => (.error e, k, net'', tr2)
        | .ok metaKey =>
          let k' := { k with
            ContentLength := metaKey.ContentLength,
            ContentType := metaKey.ContentType,
            Checksum := metaKey.Checksum,
            Modified := metaKey.Modified }
          match metaKey.ContentLength with
          | some len => (.ok (len - offset), k', net'', tr2)
          | none => (.error (.nilDereference "metaKey.ContentLength"), k', net'', tr2)

/-- `PokedexKey.Move(newName)`: one PUT against the metadata endpoint
(`key_name`/`new_key_name` travel as query parameters, elided); the
cached name is updated only on success.  No liveness check is made. -/
def PokedexKey.Move (k : PokedexKey) (newName : String) (net : Net) :
    Option PokedexError × PokedexKey × Net × Trace :=
  let tr := [⟨"PUT", k.KeyUrl⟩]
  match takeResp net with
  | (.error e, net') => (some (.transportError e), k, net', tr)
  | (.ok resp, net') =>
    match CheckHTTPResponse resp 200 with
    | some e => (some e, k, net', tr)
    | none => (none, { k with Name := newName }, net', tr)

/-- `PokedexKey.Delete()`: one DELETE against the metadata endpoint; the
local `deleted` flag is set only after a successful (status 200)
response.  No liveness check is made. -/
def PokedexKey.Delete (k : PokedexKey) (net : Net) :
    Option PokedexError × PokedexKey × Net × Trace :=
  let tr := [⟨"DELETE", k.KeyUrl⟩]
  match takeResp net with
  | (.error e, net') => (some (.transportError e), k, net', tr)
  | (.ok resp, net') =>
    match CheckHTTPResponse resp 200 with
    | some e => (some e, k, net', tr)
    | none => (none, { k with deleted := true }, net', tr)

/-- Modelled from the spec: `PokedexKey.Size()` is called by the driver
(`pokedex.go` lines 169 and 287) but its definition is not under `src/`.
Per the spec's data model and stat contract the size of a key is its
current content length, with content absent until the first write; absent
content therefore counts as zero. -/
def PokedexKey.Size (k : PokedexKey) : Int :=
  k.ContentLength.getD 0

/-!  String helpers used by the driver layer, over `List Char`.  They
mirror the Go standard-library functions the driver calls with the fixed
arguments it passes (`strings.TrimLeft(s, "/")`, `strings.TrimRight(s,
"/")`, `strings.Split(s, "/")`, `strings.Replace(s, old, new, 1)`,
`path.Join(a, b)`).  -/

/-- `strings.TrimLeft(s, "/")` -/
def trimLeftSlashL (s : List Char) : List Char :=
  s.dropWhile (· = '/')

/-- `strings.TrimRight(s, "/")` -/
def trimRightSlashL (s : List Char) : List Char :=
  (s.reverse.dropWhile (· = '/')).reverse

/-- `strings.Split(s, "/")`: split on every separator, keeping empty
parts; the empty string yields one empty part. -/
def splitOnSlash : List Char → List (List Char)
  | [] => [[]]
  | c :: rest =>
    if c = '/' then
      [] :: splitOnSlash rest
    else
      match splitOnSlash rest with
      | [] => [[c]]
      | t :: ts => (c :: t) :: ts

/-- The scan inside `strings.Replace(s, old, new, 1)` for nonempty
`old`: replace the first occurrence of `old`, if any. -/
def replaceFirstGo (old new : List Char) : List Char → List Char
  | [] => []
  | c :: rest =>
    if old.isPrefixOf (c :: rest) then new ++ (c :: rest).drop old.length
    else c :: replaceFirstGo old new rest

/-- `strings.Replace(s, old, new, 1)`: replace the first occurrence of
`old`; an empty `old` matches at the beginning of the string. -/
def replaceFirst (s old new : List Char) : List Char :=
  if old = [] then new ++ s else replaceFirstGo old new s

/-- The element-processing loop of Go `path.Clean`, over the segments of
the path: drop empty and `.` segments; `..` pops the previous kept
segment, is dropped at the root of a rooted path, and is kept at the
front of an unrooted path.  `acc` holds the kept segments in reverse. -/
def cleanSegs (rooted : Bool) (acc : List (List Char)) :
    List (List Char) → List (List Char)
  | [] => acc.reverse
  | seg :: rest =>
    if seg = [] ∨ seg = ['.'] then
      cleanSegs rooted acc rest
    else if seg = ['.', '.'] then
      match acc with
      | top :: accRest =>
        if top = ['.', '.'] then cleanSegs rooted (seg :: acc) rest
        else cleanSegs rooted accRest rest
      | [] =>
        if rooted then cleanSegs rooted [] rest
        else cleanSegs rooted [seg] rest
    else
      cleanSegs rooted (seg :: acc) rest

/-- Go `path.Clean`, via its lexical specification on segments. -/
def goPathClean (s : List Char) : List Char :=
  if s = [] then ['.']
  else
    let rooted := s.head? = some '/'
    let segs := cleanSegs rooted [] (splitOnSlash s)
    if rooted then
      match segs with
      | [] => ['/']
      | _ => '/' :: List.intercalate ['/'] segs
    else
      match segs with
      | [] => ['.']
      | _ => List.intercalate ['/'] segs

/-- Go `path.Join(a, b)`: empty elements are skipped, the rest joined
with a slash, and the result cleaned; all-empty input stays empty. -/
def goPathJoin2 (a b : List Char) : List Char :=
  if a = [] ∧ b = [] then []
  else if a = [] then goPathClean b
  else goPathClean (a ++ '/' :: b)

/-- struct `Driver` -/
structure Driver where
  Client : PokedexClient
  RootDirectory : String
  deriving DecidableEq

/-- `Driver.makePath(path)` on char lists:
`strings.TrimLeft(strings.TrimRight(rootDir, "/") + path, "/")`. -/
def makePathL (rootDir path : List Char) : List Char :=
  trimLeftSlashL (trimRightSlashL rootDir ++ path)

/-- `Driver.makePath(path)` -/
def Driver.makePath (d : Driver) (path : String) : String :=
  ⟨makePathL d.RootDirectory.data path.data⟩

/-- `Driver.getContentType()` -/
def Driver.getContentType (d : Driver) : String :=
  "application/octet-stream"

/-- `storagedriver.FileInfoFields` (the fields `Driver.Stat` populates;
the zero value has size 0, zero time and `IsDir` false). -/
structure FileInfoFields where
  Path : String
  Size : Int := 0
  ModTime : Int := 0
  IsDir : Bool := false
  deriving DecidableEq

/-- `Driver.Stat(ctx, path)`: fetch the key by exact full name; when
absent, list by the same prefix and report a directory on any match,
path-not-found on none.  There is no special case for the root path. -/
def Driver.Stat (d : Driver) (path : String) (net : Net) :
    Except PokedexError FileInfoFields × Net × Trace :=
  let fullPath := d.makePath path
  match d.Client.GetKey fullPath net with
  | (.error e, net', tr) => (.error e, net', tr)
  | (.ok none, net', tr) =>
    match d.Client.List fullPath net' with
    | (.error e, net'', tr2) => (.error e, net'', tr ++ tr2)
    | (.ok subKeys, net'', tr2) =>
      if subKeys.length > 0 then
        (.ok { Path := path, IsDir := true }, net'', tr ++ tr2)
      else
        (.error (.pathNotFound path), net'', tr ++ tr2)
  | (.ok (some key), net', tr) =>
    (.ok { Path := path, Size := key.Size, ModTime := key.Modified }, net', tr)

/-- The per-key body of the loop in `Driver.List`: strip the search
prefix (`strings.Replace(name, fullPath, "", 1)`), trim leading slashes,
split on `/`; one part appends a file child, several parts append a
directory child (first occurrence only).  `parts.headD []` renders Go's
`parts[0]` (`strings.Split` never returns an empty slice). -/
def listStep (path fullPath : List Char)
    (fd : List (List Char) × List (List Char)) (name : List Char) :
    List (List Char) × List (List Char) :=
  let rawPath := replaceFirst name fullPath []
  let parts := splitOnSlash (trimLeftSlashL rawPath)
  if parts.length = 1 then
    (fd.1 ++ [goPathJoin2 path (parts.headD [])], fd.2)
  else
    let newDir := goPathJoin2 path (parts.headD [])
    if StringSliceContains fd.2 newDir then fd
    else (fd.1, fd.2 ++ [newDir])

/-- The pure part of `Driver.List` (lines after the client call): fold
the loop body over the returned key names, then report path-not-found for
an empty result at a non-root path, else files followed by directories. -/
def driverListCore (path fullPath : List Char)
    (names : List (List Char)) : Except PokedexError (List (List Char)) :=
  let fd := names.foldl (listStep path fullPath) ([], [])
  if path ≠ ['/'] ∧ fd.1 = [] ∧ fd.2 = [] then
    .error (.pathNotFound (String.mk path))
  else
    .ok (fd.1 ++ fd.2)

/-- `Driver.List(ctx, path)` -/
def Driver.List (d : Driver) (path : String) (net : Net) :
    Except PokedexError (List String) × Net × Trace :=
  let fullPath := d.makePath path
  match d.Client.List fullPath net with
  | (.error e, net', tr) => (.error e, net', tr)
  | (.ok keys, net', tr) =>
    match driverListCore path.data fullPath.data (keys.map fun k => k.Name.data) with
    | .error e => (.error e, net', tr)
    | .ok childs => (.ok (childs.map String.mk), net', tr)

/-- `defaultChunkSize = 20 * 1024 * 1024` -/
def defaultChunkSize : Nat := 20 * 1024 * 1024

/-- struct `pokedexWriter`: the underlying `io.Writer` the buffered
writer wraps; one key handle plus the running offset. -/
structure pokedexWriter where
  driver : Driver
  key : PokedexKey
  size : Int
  deriving DecidableEq

/-- `pokedexWriter.Write(p)`: one `SetContentsFromStream` call at the
current offset; the offset advances by the returned count (which is 0
on error, as in Go). -/
def pokedexWriter.Write (pw : pokedexWriter) (p : List Nat) (net : Net) :
    (Int × Option PokedexError) × pokedexWriter × Net × Trace :=
  match pw.key.SetContentsFromStream pw.size p pw.driver.getContentType net with
  | (.ok n, key', net', tr) =>
    ((n, none), { pw with key := key', size := pw.size + n }, net', tr)
  | (.error e, key', net', tr) =>
    ((0, some e), { pw with key := key' }, net', tr)

/-- The state of a `bufio.Writer` wrapping a `pokedexWriter`: the
buffered bytes (`b.buf[0:b.n]`), the sticky error (`b.err`) and the
wrapped writer (in Go a shared pointer, here carried inline). -/
structure BufioWriter where
  buf : List Nat
  err : Option PokedexError
  pw : pokedexWriter
  deriving DecidableEq

/-- `bufio.Writer.Flush` (specialized to the pokedex underlying writer):
nothing to do on a sticky error or an empty buffer; otherwise one
underlying write; a count short of the buffer length without an error
becomes `io.ErrShortWrite`; on error the unwritten tail stays buffered
and the error sticks. -/
def BufioWriter.Flush (b : BufioWriter) (net : Net) :
    Option PokedexError × BufioWriter × Net × Trace :=
  match b.err with
  | some e => (some e, b, net, [])
  | none =>
    if b.buf.length = 0 then (none, b, net, [])
    else
      let ((n, werr), pw', net', tr) := b.pw.Write b.buf net
      let nn := n.toNat
      let err := if nn < b.buf.length ∧ werr = none then some .shortWrite else werr
      match err with
      | some e => (some e, { buf := b.buf.drop nn, err := some e, pw := pw' }, net', tr)
      | none => (none, { buf := [], err := none, pw := pw' }, net', tr)

/-- The loop of `bufio.Writer.Write`: while `p` does not fit in the
available space and no error is sticky, either write `p` straight
through (empty buffer) or fill the buffer and flush.  `fuel` only bounds
the iteration count: every iteration either records an error (ending the
loop at its next test) or consumes at least one pending network
response, so the initial fuel in `BufioWriter.Write` is never exhausted.
`Int.toNat` renders Go's use of the returned count as a slice index (the
count is nonnegative in every reachable run). -/
def BufioWriter.WriteLoop (fuel : Nat) (cap : Nat) (b : BufioWriter)
    (p : List Nat) (nn : Nat) (net : Net) (tr : Trace) :
    (Nat × Option PokedexError) × BufioWriter × Net × Trace :=
  match fuel with
  | 0 => ((nn, some (.genericError "loop bound exhausted")), b, net, tr)
  | fuel + 1 =>
    if p.length > cap - b.buf.length ∧ b.err = none then
      if b.buf.length = 0 then
        let ((n, werr), pw', net', tr') := b.pw.Write p net
        BufioWriter.WriteLoop fuel cap { b with pw := pw', err := werr }
          (p.drop n.toNat) (nn + n.toNat) net' (tr ++ tr')
      else
        let ncopy := min (cap - b.buf.length) p.length
        let b1 := { b with buf := b.buf ++ p.take ncopy }
        let (_, b2, net', tr') := b1.Flush net
        BufioWriter.WriteLoop fuel cap b2 (p.drop ncopy) (nn + ncopy) net' (tr ++ tr')
    else
      match b.err with
      | some e => ((nn, some e), b, net, tr)
      | none =>
        let ncopy := min (cap - b.buf.length) p.length
        ((nn + ncopy, none), { b with buf := b.buf ++ p.take ncopy }, net, tr)

/-- `bufio.Writer.Write(p)` (see `BufioWriter.WriteLoop` for the fuel). -/
def BufioWriter.Write (b : BufioWriter) (cap : Nat) (p : List Nat)
    (net : Net) : (Nat × Option PokedexError) × BufioWriter × Net × Trace :=
  BufioWriter.WriteLoop (net.length + p.length + 1) cap b p 0 net []

/-- struct `writer` (`pokedex.go`): the driver's `storagedriver.FileWriter`.
`bw` holds both the `bufio.Writer` state and (inline) the shared
`pokedexWriter` the Go struct points at twice. -/
structure writer where
  bw : BufioWriter
  closed : Bool
  committed : Bool
  cancelled : Bool
  deriving DecidableEq

/-- `writer.Write(p)`: rejected only when `closed`; otherwise handed to
the buffered writer.  The `committed` and `cancelled` flags are not
consulted. -/
def writer.Write (w : writer) (p : List Nat) (net : Net) :
    (Nat × Option PokedexError) × writer × Net × Trace :=
  if w.closed then
    ((0, some (.genericError "already closed")), w, net, [])
  else
    let ((nn, err), b', net', tr) := w.bw.Write defaultChunkSize p net
    ((nn, err), { w with bw := b' }, net', tr)

/-- `writer.Close()`: error when already closed; otherwise flush, and
mark closed only when the flush succeeded. -/
def writer.Close (w : writer) (net : Net) :
    Option PokedexError × writer × Net × Trace :=
  if w.closed then
    (some (.genericError "already closed"), w, net, [])
  else
    match w.bw.Flush net with
    | (some e, b', net', tr) => (some e, { w with bw := b' }, net', tr)
    | (none, b', net', tr) => (none, { w with bw := b', closed := true }, net', tr)

/-- `writer.Commit()`: error when already closed, committed or
cancelled; otherwise flush, and mark committed only when the flush
succeeded. -/
def writer.Commit (w : writer) (net : Net) :
    Option PokedexError × writer × Net × Trace :=
  if w.closed then
    (some (.genericError "already closed"), w, net, [])
  else if w.committed then
    (some (.genericError "already committed"), w, net, [])
  else if w.cancelled then
    (some (.genericError "already cancelled"), w, net, [])
  else
    match w.bw.Flush net with
    | (some e, b', net', tr) => (some e, { w with bw := b' }, net', tr)
    | (none, b', net', tr) => (none, { w with bw := b', committed := true }, net', tr)

/-- `writer.Cancel()`: error when already closed or committed; otherwise
mark cancelled and delete the key (the buffer is neither flushed nor
discarded). -/
def writer.Cancel (w : writer) (net : Net) :
    Option PokedexError × writer × Net × Trace :=
  if w.closed then
    (some (.genericError "already closed"), w, net, [])
  else if w.committed then
    (some (.genericError "already committed"), w, net, [])
  else
    let w1 := { w with cancelled := true }
    let (err, key', net', tr) := w1.bw.pw.key.Delete net
    (err, { w1 with bw := { w1.bw with pw := { w1.bw.pw with key := key' } } }, net', tr)

/-- `writer.Size()`: bytes handed to the underlying writer plus bytes
still buffered. -/
def writer.Size (w : writer) : Int :=
  w.bw.pw.size + w.bw.buf.length

/-- `Driver.Writer(ctx, path, append)`: resolve (append) or create
(truncate) the key, seed the size from the key when appending, and wrap
a fresh buffered writer of capacity `defaultChunkSize` around a
`pokedexWriter`. -/
def Driver.Writer (d : Driver) (path : String) (append : Bool) (net : Net) :
    Except PokedexError writer × Net × Trace :=
  let fullPath := d.makePath path
  match (if append then d.Client.GetKey fullPath net else d.Client.CreateKey fullPath net) with
  | (.error e, net', tr) => (.error e, net', tr)
  | (.ok none, net', tr) => (.error (.pathNotFound path), net', tr)
  | (.ok (some key), net', tr) =>
    let size : Int := if append then key.Size else 0
    (.ok { bw := { buf := [], err := none, pw := { driver := d, key := key, size := size } },
           closed := false, committed := false, cancelled := false }, net', tr)

/-!  Spec-side rendering of the directory-listing contract, for the
refinement statement of the listing claim: strip the listing prefix from
each returned name, drop the leading separator, split on `/`; a
single-segment remainder is a file child (in listing order); a
multi-segment remainder yields one directory child per distinct first
segment, in first-seen order; an empty result at a non-root path is
reported as not-found.  -/

/-- The remainder of a returned name after the listing prefix, as
slash-separated segments. -/
def remSegs (fullPath n : List Char) : List (List Char) :=
  splitOnSlash (trimLeftSlashL (n.drop fullPath.length))

/-- The file children: names whose remainder is a single segment. -/
def fileChildren (path fullPath : List Char)
    (names : List (List Char)) : List (List Char) :=
  ((names.map (remSegs fullPath)).filter fun parts => decide (parts.length = 1)).map
    fun parts => goPathJoin2 path (parts.headD [])

/-- The directory-child candidates: the first segment of every
multi-segment remainder, in listing order, with repetitions. -/
def dirCandidates (path fullPath : List Char)
    (names : List (List Char)) : List (List Char) :=
  ((names.map (remSegs fullPath)).filter fun parts => decide (parts.length ≠ 1)).map
    fun parts => goPathJoin2 path (parts.headD [])

/-- Append an element unless already present. -/
def insertNewDir (dirs : List (List Char)) (x : List Char) : List (List Char) :=
  if x ∈ dirs then dirs else dirs ++ [x]

/-- Deduplicate keeping first occurrences in order. -/
def dedupFirstSeen (l : List (List Char)) : List (List Char) :=
  l.foldl insertNewDir []

/-- The listing contract as the spec states it. -/
def listSpec (path fullPath : List Char) (names : List (List Char)) :
    Except PokedexError (List (List Char)) :=
  let files := fileChildren path fullPath names
  let dirs := dedupFirstSeen (dirCandidates path fullPath names)
  if path ≠ ['/'] ∧ files = [] ∧ dirs = [] then
    .error (.pathNotFound (String.mk path))
  else
    .ok (files ++ dirs)

/-!  Concrete inputs shared by the counterexamples and witnesses.  -/

/-- A concrete client. -/
def cexClient : PokedexClient := ⟨"pokedex.example", 4000⟩

/-- A concrete driver with an empty root directory. -/
def cexDriver : Driver := ⟨cexClient, ""⟩

/-- A concrete freshly-created key record named `x` with no content. -/
def cexKeyWire : WireKey :=
  ⟨7, "x", 10, 10, "fs1", "files.example", 4001, none, none, none⟩

/-- The handle for `cexKeyWire` as fetching it would build it. -/
def cexKey : PokedexKey := initKey cexKeyWire cexClient

/-- A status-200 response with the given body. -/
def ok200 (b : RespBody) : HTTPResult := Except.ok ⟨200, "200 OK", b⟩

/-- The writer `Driver.Writer(ctx, "x", false)` hands back after
creating `cexKeyWire` (see the writer-claim counterexamples, which also
prove this). -/
def cexFreshWriter : writer :=
  { bw := { buf := [], err := none,
            pw := { driver := cexDriver, key := cexKey, size := 0 } },
    closed := false, committed := false, cancelled := false }

/-!  Helper lemmas.  -/

/-- `PokedexKey.Move` issues its PUT request on every run (the trace is
built before the response is consulted, as `req.Do` is unconditional). -/
theorem Move_trace (k : PokedexKey) (newName : String) (net : Net) :
    (k.Move newName net).2.2.2 = [⟨"PUT", k.KeyUrl⟩] := by
  cases net with
  | nil => rfl
  | cons r rs =>
    cases r with
    | error e => rfl
    | ok resp =>
      simp only [PokedexKey.Move, takeResp]
      cases CheckHTTPResponse resp 200 <;> rfl

/-- `PokedexKey.Delete` issues its DELETE request on every run. -/
theorem Delete_trace (k : PokedexKey) (net : Net) :
    (k.Delete net).2.2.2 = [⟨"DELETE", k.KeyUrl⟩] := by
  cases net with
  | nil => rfl
  | cons r rs =>
    cases r with
    | error e => rfl
    | ok resp =>
      simp only [PokedexKey.Delete, takeResp]
      cases CheckHTTPResponse resp 200 <;> rfl

/-!  Claim theorems.  -/

/-- C1, counterexample: a `Delete` whose server call fails (status 500)
returns the request error but leaves the handle's `deleted` flag false —
the claim that the flag is set even when the call fails is refuted. -/
theorem C1_counterexample :
    (cexKey.Delete [.ok ⟨500, "500 Internal Server Error", .jsonNull⟩]).1 =
      some (.requestError 500 "500 Internal Server Error") ∧
    (cexKey.Delete [.ok ⟨500, "500 Internal Server Error", .jsonNull⟩]).2.1.deleted = false := by
  constructor <;> rfl

/-- C1 (amended): `PokedexKey.Delete` sets the handle's local `deleted`
flag exactly when the server call succeeds (returns no error); on a
transport error or a non-200 status the flag is left unchanged. -/
theorem C1_theorem (k : PokedexKey) (net : Net) :
    ((k.Delete net).1 = none → (k.Delete net).2.1.deleted = true) ∧
    ((k.Delete net).1 ≠ none → (k.Delete net).2.1 = k) := by
  cases net with
  | nil => simp [PokedexKey.Delete, takeResp]
  | cons r rs =>
    cases r with
    | error e => simp [PokedexKey.Delete, takeResp]
    | ok resp =>
      by_cases h : resp.statusCode = 200 <;>
        simp [PokedexKey.Delete, takeResp, CheckHTTPResponse, h]

/-- Witness for C1: a successful delete does set the flag. -/
theorem C1_witness :
    (cexKey.Delete [ok200 .jsonNull]).2.1.deleted = true :=
  (C1_theorem cexKey [ok200 .jsonNull]).1 rfl

/-- C4, counterexample: `Stat` on the root path, with no key named by
the root and an empty listing, returns path-not-found — the claim that
stat never reports not-found for the root is refuted. -/
theorem C4_counterexample :
    (cexDriver.Stat "/" [ok200 .jsonNull, ok200 (.jsonKeys [])]).1 =
      .error (.pathNotFound "/") := by
  rfl

/-- C4 (amended): `Stat` fetches the key by exact full name; a present
key yields its size and modification time; an absent key with a
non-empty prefix listing yields a directory; an absent key with an empty
listing yields path-not-found — for every path, the root included (stat
gives the root no special treatment). -/
theorem C4_theorem :
    (∀ (d : Driver) (path s : String) (w : WireKey) (rest : Net),
        (d.Stat path (.ok ⟨200, s, .jsonKey w⟩ :: rest)).1 =
          .ok { Path := path, Size := (initKey w d.Client).Size,
                ModTime := w.Modified, IsDir := false }) ∧
    (∀ (d : Driver) (path s s2 : String) (w : WireKey) (ws : List WireKey) (rest : Net),
        (d.Stat path (.ok ⟨200, s, .jsonNull⟩ :: .ok ⟨200, s2, .jsonKeys (w :: ws)⟩ :: rest)).1 =
          .ok { Path := path, Size := 0, ModTime := 0, IsDir := true }) ∧
    (∀ (d : Driver) (path s s2 : String) (rest : Net),
        (d.Stat path (.ok ⟨200, s, .jsonNull⟩ :: .ok ⟨200, s2, .jsonKeys []⟩ :: rest)).1 =
          .error (.pathNotFound path)) := by
  refine ⟨fun d path s w rest => rfl, fun d path s s2 w ws rest => ?_,
    fun d path s s2 rest => rfl⟩
  simp [Driver.Stat, PokedexClient.GetKey, PokedexClient.RequestKey, PokedexClient.List,
    takeResp, CheckHTTPResponse, PokedexKeyFromJson]

/-- C6: a successful `SetContentsFromStream` replaces the handle's
cached `ContentLength`, `ContentType`, `Checksum` and `Modified` with
the values from the server's response and returns the server-reported
content length minus the requested offset. -/
theorem C6_theorem (wk wlive meta : WireKey) (c : PokedexClient)
    (offset L : Int) (src : List Nat) (ct s1 s2 : String) (rest : Net) :
    (PokedexKey.SetContentsFromStream ⟨wk, false, c⟩ offset src ct
       (.ok ⟨200, s1, .jsonKey wlive⟩ ::
        .ok ⟨200, s2, .jsonKey { meta with ContentLength := some L }⟩ :: rest)).1 =
      .ok (L - offset) ∧
    (PokedexKey.SetContentsFromStream ⟨wk, false, c⟩ offset src ct
       (.ok ⟨200, s1, .jsonKey wlive⟩ ::
        .ok ⟨200, s2, .jsonKey { meta with ContentLength := some L }⟩ :: rest)).2.1 =
      { toWireKey :=
          { wk with
            ContentLength := some L, ContentType := meta.ContentType,
            Checksum := meta.Checksum, Modified := meta.Modified },
        deleted := false, client := c } ∧
    (PokedexKey.SetContentsFromStream ⟨wk, false, c⟩ offset src ct
       (.ok ⟨200, s1, .jsonKey wlive⟩ ::
        .ok ⟨200, s2, .jsonKey { meta with ContentLength := some L }⟩ :: rest)).2.2.1 =
      rest := by
  refine ⟨rfl, rfl, rfl⟩

/-- C7: on a live handle, a status-416 data response ("range not
satisfiable": offset at or beyond the current content length) makes
`GetContentsAsStream` return an empty stream and no error. -/
theorem C7_theorem (wk wlive : WireKey) (c : PokedexClient) (offset : Int)
    (s1 s2 : String) (b : RespBody) (rest : Net) :
    (PokedexKey.GetContentsAsStream ⟨wk, false, c⟩ offset
       (.ok ⟨200, s1, .jsonKey wlive⟩ :: .ok ⟨416, s2, b⟩ :: rest)).1 = .ok [] ∧
    (PokedexKey.GetContentsAsStream ⟨wk, false, c⟩ offset
       (.ok ⟨200, s1, .jsonKey wlive⟩ :: .ok ⟨416, s2, b⟩ :: rest)).2.1 = rest := by
  refine ⟨rfl, rfl⟩

/-- C8: fetching a name with no live record (the metadata service's
status-200 response with body `null`) yields no key and no error. -/
theorem C8_theorem (c : PokedexClient) (name s : String) (rest : Net) :
    c.GetKey name (.ok ⟨200, s, .jsonNull⟩ :: rest) =
      (.ok none, rest, [⟨"GET", c.MakeUrl ("keys/" ++ name)⟩]) := by
  rfl

/-- C9: `PokedexClient.Delete` rejects the empty and the root prefix
with an error and a zero count before issuing any request (the trace is
empty and the pending responses are untouched); any other prefix issues
the DELETE request and a successful response's `num_deleted` is returned
as the count, with no error. -/
theorem C9_theorem :
    (∀ (c : PokedexClient) (net : Net),
        c.Delete "" net =
          ((0, some (.genericError "PokedexClient.Delete: prefix must not be the root")),
            net, [])) ∧
    (∀ (c : PokedexClient) (net : Net),
        c.Delete "/" net =
          ((0, some (.genericError "PokedexClient.Delete: prefix must not be the root")),
            net, [])) ∧
    (∀ (c : PokedexClient) (p : String), p ≠ "" → p ≠ "/" →
        ∀ (s : String) (n : Int) (rest : Net),
          c.Delete p (.ok ⟨200, s, .jsonCount n⟩ :: rest) =
            ((n, none), rest, [⟨"DELETE", c.MakeUrl "keys"⟩])) := by
  refine ⟨fun c net => rfl, fun c net => rfl, fun c p h1 h2 s n rest => ?_⟩
  simp [PokedexClient.Delete, h1, h2, takeResp, CheckHTTPResponse]

/-- Witness for C9: a non-root prefix proceeds and returns the count. -/
theorem C9_witness :
    cexClient.Delete "a" [ok200 (.jsonCount 3)] =
      ((3, none), [], [⟨"DELETE", cexClient.MakeUrl "keys"⟩]) :=
  C9_theorem.2.2 cexClient "a" (by decide) (by decide) "200 OK" 3 []

/-- C10: with the handle's local `deleted` flag set, the streaming read
and write operations fail fast with a key-does-not-exist error and issue
no request at all, while `Move` and `Delete` perform no liveness check
and still issue their remote request. -/
theorem C10_theorem (wk : WireKey) (c : PokedexClient) (offset : Int)
    (src : List Nat) (ct newName : String) (net : Net) :
    (PokedexKey.GetContentsAsStream ⟨wk, true, c⟩ offset net).1 =
      .error (.keyDoesNotExist wk.Name) ∧
    (PokedexKey.GetContentsAsStream ⟨wk, true, c⟩ offset net).2.2 = [] ∧
    (PokedexKey.SetContentsFromStream ⟨wk, true, c⟩ offset src ct net).1 =
      .error (.keyDoesNotExist wk.Name) ∧
    (PokedexKey.SetContentsFromStream ⟨wk, true, c⟩ offset src ct net).2.2.2 = [] ∧
    (PokedexKey.Move ⟨wk, true, c⟩ newName net).2.2.2 =
      [⟨"PUT", PokedexKey.KeyUrl ⟨wk, true, c⟩⟩] ∧
    (PokedexKey.Delete ⟨wk, true, c⟩ net).2.2.2 =
      [⟨"DELETE", PokedexKey.KeyUrl ⟨wk, true, c⟩⟩] := by
  refine ⟨rfl, rfl, rfl, rfl, Move_trace _ _ _, Delete_trace _ _⟩

/-- A successful `Flush` leaves an empty buffer and no sticky error. -/
theorem Flush_ok_state (b : BufioWriter) (net : Net)
    (h : (b.Flush net).1 = none) :
    (b.Flush net).2.1.buf = [] ∧ (b.Flush net).2.1.err = none := by
  unfold BufioWriter.Flush at h ⊢
  cases herr : b.err with
  | some e => simp [herr] at h
  | none =>
    simp only [herr] at h ⊢
    by_cases hb : b.buf.length = 0
    · simp only [if_pos hb] at h ⊢
      exact ⟨List.length_eq_zero.mp hb, herr⟩
    · simp only [if_neg hb] at h ⊢
      rcases hw : b.pw.Write b.buf net with ⟨⟨n, werr⟩, pw', net', tr⟩
      simp only [hw] at h ⊢
      by_cases hsw : n.toNat < b.buf.length ∧ werr = none
      · rw [if_pos hsw] at h
        exact absurd h (by simp)
      · simp only [if_neg hsw] at h ⊢
        cases werr with
        | some e => simp at h
        | none => exact ⟨rfl, rfl⟩

/-- C2, counterexample: a freshly opened Writer (as `Driver.Writer`
hands it back), once committed, still accepts a subsequent write: the
byte is buffered and no error is returned — the claim that a write in a
terminal state fails is refuted for the `committed` state. -/
theorem C2_counterexample :
    (cexDriver.Writer "x" false [ok200 (.jsonKey cexKeyWire)]).1 = .ok cexFreshWriter ∧
    (cexFreshWriter.Commit []).1 = none ∧
    (cexFreshWriter.Commit []).2.1.committed = true ∧
    (writer.Write (cexFreshWriter.Commit []).2.1 [7] []).1 = (1, none) ∧
    (writer.Write (cexFreshWriter.Commit []).2.1 [7] []).2.1.bw.buf = [7] := by
  refine ⟨rfl, rfl, rfl, ?_, ?_⟩ <;> decide

/-- C2 (amended): a write on a closed Writer fails with "already
closed" without touching the buffer or the network; the `committed` and
`cancelled` flags are not checked by `Write`, so a write after `Commit`
or `Cancel` (without `Close`) behaves exactly as a write in the open
state — its outcome, buffered-writer state and network effect are
independent of those two flags. -/
theorem C2_theorem :
    (∀ (b : BufioWriter) (co ca : Bool) (p : List Nat) (net : Net),
        writer.Write ⟨b, true, co, ca⟩ p net =
          ((0, some (.genericError "already closed")), ⟨b, true, co, ca⟩, net, [])) ∧
    (∀ (b : BufioWriter) (co ca co2 ca2 : Bool) (p : List Nat) (net : Net),
        (writer.Write ⟨b, false, co, ca⟩ p net).1 =
          (writer.Write ⟨b, false, co2, ca2⟩ p net).1 ∧
        (writer.Write ⟨b, false, co, ca⟩ p net).2.1.bw =
          (writer.Write ⟨b, false, co2, ca2⟩ p net).2.1.bw ∧
        (writer.Write ⟨b, false, co, ca⟩ p net).2.2 =
          (writer.Write ⟨b, false, co2, ca2⟩ p net).2.2) := by
  constructor
  · intro b co ca p net
    rfl
  · intro b co ca co2 ca2 p net
    rcases hw : BufioWriter.Write b defaultChunkSize p net with ⟨⟨nn, err⟩, b', net', tr⟩
    simp [writer.Write, hw]

/-- C3, counterexample: write a byte, cancel (deleting the key), then
close.  The Writer is in the terminal `cancelled` state, yet `Close` is
not a no-op: it tries to flush the buffered byte to the now-deleted key
and returns a key-does-not-exist error. -/
theorem C3_counterexample :
    ((writer.Cancel (writer.Write cexFreshWriter [7] []).2.1 [ok200 .jsonNull]).2.1.cancelled
        = true) ∧
    ((writer.Cancel (writer.Write cexFreshWriter [7] []).2.1 [ok200 .jsonNull]).1 = none) ∧
    ((writer.Close
        (writer.Cancel (writer.Write cexFreshWriter [7] []).2.1 [ok200 .jsonNull]).2.1 []).1
        = some (.keyDoesNotExist "x")) := by
  refine ⟨?_, ?_, ?_⟩ <;> decide

/-- C3 (amended): when no terminal state has been reached, `Close`
behaves as `Commit` — same returned error, same buffered-writer state,
same network effect, only the flag that gets set differs; and `Commit`
followed by `Close` returns no error, issues no request and leaves the
stored state untouched apart from the `closed` flag.  (`Close` after
`Cancel`, however, is not a no-op: it still flushes the buffer, see the
counterexample.) -/
theorem C3_theorem :
    (∀ (b : BufioWriter) (net : Net),
        (writer.Close ⟨b, false, false, false⟩ net).1 =
          (writer.Commit ⟨b, false, false, false⟩ net).1 ∧
        (writer.Close ⟨b, false, false, false⟩ net).2.1.bw =
          (writer.Commit ⟨b, false, false, false⟩ net).2.1.bw ∧
        (writer.Close ⟨b, false, false, false⟩ net).2.2 =
          (writer.Commit ⟨b, false, false, false⟩ net).2.2) ∧
    (∀ (w : writer) (net net2 : Net), (w.Commit net).1 = none →
        writer.Close (w.Commit net).2.1 net2 =
          (none, { (w.Commit net).2.1 with closed := true }, net2, [])) := by
  constructor
  · intro b net
    rcases hf : b.Flush net with ⟨ferr, b', net', tr⟩
    cases ferr <;> simp [writer.Close, writer.Commit, hf]
  · intro w net net2 h
    by_cases hc : w.closed = true
    · simp [writer.Commit, hc] at h
    · by_cases hco : w.committed = true
      · simp [writer.Commit, hc, hco] at h
      · by_cases hca : w.cancelled = true
        · simp [writer.Commit, hc, hco, hca] at h
        · rcases hf : w.bw.Flush net with ⟨ferr, b', net', tr⟩
          cases ferr with
          | some e => simp [writer.Commit, hc, hco, hca, hf] at h
          | none =>
            have hb : b'.buf = [] ∧ b'.err = none := by
              have h2 := Flush_ok_state w.bw net (by rw [hf])
              rw [hf] at h2
              exact h2
            have hCommit : w.Commit net =
                (none, { w with bw := b', committed := true }, net', tr) := by
              simp [writer.Commit, hc, hco, hca, hf]
            rw [hCommit]
            simp [writer.Close, BufioWriter.Flush, hb.1, hb.2, hc]

/-- Witness for C3: on a fresh empty writer, `Commit` succeeds and the
following `Close` is errorless and effect-free. -/
theorem C3_witness :
    (cexFreshWriter.Commit []).1 = none ∧
    writer.Close (cexFreshWriter.Commit []).2.1 [] =
      (none, { (cexFreshWriter.Commit []).2.1 with closed := true }, [], []) :=
  ⟨rfl, C3_theorem.2 cexFreshWriter [] [] rfl⟩

/-- `StringSliceContains` agrees with list membership. -/
theorem StringSliceContains_iff (l : List (List Char)) (x : List Char) :
    StringSliceContains l x = true ↔ x ∈ l := by
  induction l with
  | nil => simp [StringSliceContains]
  | cons a rest ih =>
    by_cases hax : a = x
    · simp [StringSliceContains, hax]
    · simp only [StringSliceContains, if_neg hax, ih, List.mem_cons]
      constructor
      · exact Or.inr
      · rintro (h | h)
        · exact absurd h.symm hax
        · exact h

/-- On a name that carries the prefix, `strings.Replace(name, prefix,
"", 1)` is exactly prefix-stripping. -/
theorem replaceFirst_strips (s old : List Char) (h : old <+: s) :
    replaceFirst s old [] = s.drop old.length := by
  by_cases hold : old = []
  · subst hold
    simp [replaceFirst]
  · rw [replaceFirst, if_neg hold]
    cases s with
    | nil => simp [replaceFirstGo]
    | cons c rest =>
      rw [replaceFirstGo, if_pos (List.isPrefixOf_iff_prefix.mpr h)]
      simp

/-- One step of the listing loop, under the prefix guarantee: a
single-segment remainder appends a file child, anything else inserts a
new directory child. -/
theorem listStep_reduce (path fullPath : List Char)
    (fd : List (List Char) × List (List Char)) (name : List Char)
    (h : fullPath <+: name) :
    listStep path fullPath fd name =
      (if (remSegs fullPath name).length = 1 then
        (fd.1 ++ [goPathJoin2 path ((remSegs fullPath name).headD [])], fd.2)
      else
        (fd.1, insertNewDir fd.2 (goPathJoin2 path ((remSegs fullPath name).headD [])))) := by
  unfold listStep remSegs insertNewDir
  rw [replaceFirst_strips name fullPath h]
  by_cases hl : (splitOnSlash (trimLeftSlashL (name.drop fullPath.length))).length = 1
  · rw [if_pos hl, if_pos hl]
  · rw [if_neg hl, if_neg hl]
    by_cases hmem :
        goPathJoin2 path
          ((splitOnSlash (trimLeftSlashL (name.drop fullPath.length))).headD []) ∈ fd.2
    · rw [if_pos ((StringSliceContains_iff _ _).mpr hmem), if_pos hmem]
    · rw [if_neg (fun hh => hmem ((StringSliceContains_iff _ _).mp hh)), if_neg hmem]

/-- Unfolding `fileChildren` over a cons. -/
theorem fileChildren_cons (path fullPath n : List Char) (rest : List (List Char)) :
    fileChildren path fullPath (n :: rest) =
      if (remSegs fullPath n).length = 1 then
        goPathJoin2 path ((remSegs fullPath n).headD []) :: fileChildren path fullPath rest
      else fileChildren path fullPath rest := by
  by_cases hl : (remSegs fullPath n).length = 1 <;>
    simp [fileChildren, List.filter_cons, hl]

/-- Unfolding `dirCandidates` over a cons. -/
theorem dirCandidates_cons (path fullPath n : List Char) (rest : List (List Char)) :
    dirCandidates path fullPath (n :: rest) =
      if (remSegs fullPath n).length = 1 then dirCandidates path fullPath rest
      else goPathJoin2 path ((remSegs fullPath n).headD []) :: dirCandidates path fullPath rest := by
  by_cases hl : (remSegs fullPath n).length = 1 <;>
    simp [dirCandidates, List.filter_cons, hl]

/-- The listing fold equals the spec-side file children plus the
directory-candidate insertion fold, for any starting accumulators. -/
theorem foldl_listStep (path fullPath : List Char) (names : List (List Char))
    (h : ∀ n ∈ names, fullPath <+: n) :
    ∀ (files dirs : List (List Char)),
      names.foldl (listStep path fullPath) (files, dirs) =
        (files ++ fileChildren path fullPath names,
         (dirCandidates path fullPath names).foldl insertNewDir dirs) := by
  induction names with
  | nil =>
    intro files dirs
    simp [fileChildren, dirCandidates]
  | cons n rest ih =>
    intro files dirs
    have hn : fullPath <+: n := h n (List.mem_cons_self _ _)
    have hrest : ∀ m ∈ rest, fullPath <+: m := fun m hm => h m (List.mem_cons_of_mem _ hm)
    rw [List.foldl_cons, listStep_reduce path fullPath (files, dirs) n hn,
      fileChildren_cons, dirCandidates_cons]
    by_cases hl : (remSegs fullPath n).length = 1
    · rw [if_pos hl, if_pos hl, if_pos hl, ih hrest]
      simp
    · rw [if_neg hl, if_neg hl, if_neg hl, ih hrest]
      simp

/-- The pure listing core refines the spec's listing contract whenever
every returned name carries the listing prefix (which the prefix listing
guarantees). -/
theorem driverListCore_eq_listSpec (path fullPath : List Char)
    (names : List (List Char)) (h : ∀ n ∈ names, fullPath <+: n) :
    driverListCore path fullPath names = listSpec path fullPath names := by
  unfold driverListCore listSpec dedupFirstSeen
  rw [foldl_listStep path fullPath names h [] []]
  simp

/-- C5: `Driver.List` on any listing response: each returned name has
the listing prefix stripped and the remainder split on `/`; a
single-segment remainder yields a file child (in listing order), a
multi-segment remainder yields one directory child per distinct first
segment (deduplicated, first-seen order, after the files); an empty
result at a non-root path is path-not-found. -/
theorem C5_theorem (d : Driver) (path s : String) (ws : List WireKey) (rest : Net)
    (h : ∀ w ∈ ws, (d.makePath path).data <+: w.Name.data) :
    (d.List path (.ok ⟨200, s, .jsonKeys ws⟩ :: rest)).1 =
      (listSpec path.data (d.makePath path).data (ws.map fun w => w.Name.data)).map
        (fun cs => cs.map fun l => String.mk l) ∧
    (d.List path (.ok ⟨200, s, .jsonKeys ws⟩ :: rest)).2 =
      (rest, [⟨"GET", d.Client.MakeUrl "keys"⟩]) := by
  have hmap : (ws.map fun w => initKey w d.Client).map (fun k => k.Name.data) =
      ws.map fun w => w.Name.data := by
    rw [List.map_map]
    rfl
  have hcore := driverListCore_eq_listSpec path.data (d.makePath path).data
    (ws.map fun w => w.Name.data)
    (by
      intro n hn
      rcases List.mem_map.mp hn with ⟨w, hw, rfl⟩
      exact h w hw)
  have hred : d.List path (.ok ⟨200, s, .jsonKeys ws⟩ :: rest) =
      (match listSpec path.data (d.makePath path).data (ws.map fun w => w.Name.data) with
       | .error e => (.error e, rest, [⟨"GET", d.Client.MakeUrl "keys"⟩])
       | .ok childs =>
         (.ok (childs.map fun l => String.mk l), rest,
           [⟨"GET", d.Client.MakeUrl "keys"⟩])) := by
    simp only [Driver.List]
    rw [show d.Client.List (d.makePath path) (.ok ⟨200, s, .jsonKeys ws⟩ :: rest) =
        (.ok (ws.map fun w => initKey w d.Client), rest,
          [⟨"GET", d.Client.MakeUrl "keys"⟩]) from rfl]
    simp only [hmap, hcore]
  rw [hred]
  cases hspec : listSpec path.data (d.makePath path).data (ws.map fun w => w.Name.data) with
  | error e => exact ⟨rfl, rfl⟩
  | ok childs => exact ⟨rfl, rfl⟩

/-- Two concrete keys one level below `a/`, as the spec's
directory-synthesis example uses them. -/
def cexListKeys : List WireKey :=
  [{ cexKeyWire with Name := "a/b/1" }, { cexKeyWire with Name := "a/b/2" }]

/-- Witness for C5: listing `/a` over keys `a/b/1`, `a/b/2` matches the
spec-side contract (one directory child `/a/b`). -/
theorem C5_witness :
    (cexDriver.List "/a" [ok200 (.jsonKeys cexListKeys)]).1 =
      (listSpec "/a".data (cexDriver.makePath "/a").data
        (cexListKeys.map fun w => w.Name.data)).map
          (fun cs => cs.map fun l => String.mk l) ∧
    (cexDriver.List "/a" [ok200 (.jsonKeys cexListKeys)]).2 =
      ([], [⟨"GET", cexDriver.Client.MakeUrl "keys"⟩]) :=
  C5_theorem cexDriver "/a" "200 OK" cexListKeys [] (by decide)
